import Mathlib

/-!
# Verification of the Calculator repository

A shallow embedding of the core calculator pipeline — tokenizer
(`src/Lexicography.cpp`), recursive-descent parser (`src/Parser.cpp`, the
current variant: the one that also handles `pow`, `fact` and postfix
factorial tokens), AST node evaluation (`include/BinaryOpNode.h`,
`include/FuncNode.h`, `include/UnaryOpNode.h`, `include/VariableNode.h`,
`include/NumberNode.h`) and the `Calculator` environment
(`src/Calculator.cpp`) together with the REPL line processing of
`src/main.cpp` — and proofs about it.

Numeric values are modelled as rationals (`ℚ`): the C++ code computes in
`long double`, and every concrete value exercised by the theorems below
(small integers and short decimal literals) is exact in both domains.
Transcendental functions (`sin`, `ln`, ... ) and `pow` at non-integer
exponents have no rational meaning; the evaluator is parameterised by a
`RealOps` bundle of those functions, and theorems quantify over it, so
nothing proved depends on a particular approximation.
-/

set_option maxRecDepth 10000

/-- Token kinds, mirroring `enum class TokenType` in `Lexicography.h`.
`FACTORIAL` is referenced by the parser variant that supports postfix `!`
(`Parser.cpp`, `parseUnary`); no `Lexicography.h`
variant of the repository declares it and the tokenizer never emits it, so it is included
here to embed that parser faithfully. -/
inductive TokenType where
  | NUMBER
  | VARIABLE
  | FUNCTION
  | PLUS
  | MINUS
  | MULTIPLY
  | DIVIDE
  | POWER
  | LEFTPAREN
  | RIGHTPAREN
  | ASSIGN
  | COMMA
  | ABS
  | FACTORIAL
  | END
  | PRESERVE
  | REMOVE
deriving DecidableEq, BEq, Repr

/-- A token: tagged pair of kind and lexeme, mirroring `struct Token`. -/
structure Token where
  type : TokenType
  value : String
deriving DecidableEq, BEq, Repr

/-- The failure modes of the pipeline.  The C++ code throws
`std::runtime_error` (or `std::invalid_argument` out of `stod`) with a
message; we tag the distinct throw sites. -/
inductive CalcError where
  /-- tokenizer `default:` case — unrecognized character -/
  | lexError (c : Char)
  /-- `std::invalid_argument` thrown by `stod` on a literal with no
  numeric prefix -/
  | stodError
  /-- parser `throw runtime_error(...)` sites -/
  | parseError (msg : String)
  /-- the unknown-function throw of the parser at the end of the `FUNCTION`
  dispatch in `parsePrimary` -/
  | unknownFunction (name : String)
  /-- node-evaluation `throw runtime_error(...)` sites (domain errors) -/
  | evalError (msg : String)
  /-- `VariableNode::evaluate` lookup failure -/
  | nameError (name : String)
  /-- fuel exhaustion of the embedded parser; never reached on the
  inputs considered below -/
  | outOfFuel
deriving DecidableEq, BEq, Repr

/-! ## Tokenizer (`tokenize`, `src/Lexicography.cpp`) -/

/-- `isspace` for the default C locale on ASCII input. -/
def isSpaceC (c : Char) : Bool :=
  c == ' ' || c == '\t' || c == '\n' || c == '\r' || c == '\x0b' || c == '\x0c'

/-- Characters kept inside a number run: `isdigit(c) || c == '.'`. -/
def numRunP (c : Char) : Bool := c.isDigit || c == '.'

/-- Characters kept inside an identifier run:
`isalpha(c) || isdigit(c) || c == '_'`. -/
def wordRunP (c : Char) : Bool := c.isAlpha || c.isDigit || c == '_'

/-- The fixed function-name set of the tokenizer (note `"logten"`, not
`"log10"`). -/
def functionNames : List String :=
  ["sin", "cos", "tan", "asin", "acos", "atan", "exp", "log", "sqrt",
   "logten", "ln", "abs", "pow"]

/-- Classification of an identifier run, mirroring the word branch of
`tokenize`. -/
def classifyWord (w : String) : Token :=
  if functionNames.contains w then ⟨.FUNCTION, w⟩
  else if w == "preserve" then ⟨.PRESERVE, w⟩
  else if w == "remove" then ⟨.REMOVE, w⟩
  else ⟨.VARIABLE, w⟩

/-- The single-character punctuation switch of `tokenize`; the `default:`
case throws.  There is no `'!'` case in the tokenizer of the repository. -/
def puncToken (c : Char) : Except CalcError Token :=
  if c == '+' then .ok ⟨.PLUS, "+"⟩
  else if c == '-' then .ok ⟨.MINUS, "-"⟩
  else if c == '*' then .ok ⟨.MULTIPLY, "*"⟩
  else if c == '/' then .ok ⟨.DIVIDE, "/"⟩
  else if c == '^' then .ok ⟨.POWER, "^"⟩
  else if c == '(' then .ok ⟨.LEFTPAREN, "("⟩
  else if c == ')' then .ok ⟨.RIGHTPAREN, ")"⟩
  else if c == '=' then .ok ⟨.ASSIGN, "="⟩
  else if c == ',' then .ok ⟨.COMMA, ","⟩
  else if c == '|' then .ok ⟨.ABS, "|"⟩
  else .error (.lexError c)

/-- The main scan loop of `tokenize`: a single left-to-right pass;
maximal digit-dot runs become `NUMBER` tokens, maximal identifier runs
are classified, punctuation maps 1:1, anything else is a `lexError`.
A trailing `END` token is appended.  The fuel argument only makes the
recursion structural; `tokenize` supplies one unit per character plus
one, which is always sufficient since every step consumes at least one
character. -/
def tokenizeGo : Nat → List Char → Except CalcError (List Token)
  | 0, _ => .error .outOfFuel
  | _ + 1, [] => .ok [⟨.END, " "⟩]
  | fuel + 1, c :: cs =>
    if isSpaceC c then tokenizeGo fuel cs
    else if numRunP c then do
      let rest ← tokenizeGo fuel (cs.dropWhile numRunP)
      pure (⟨.NUMBER, ⟨c :: cs.takeWhile numRunP⟩⟩ :: rest)
    else if c.isAlpha then do
      let rest ← tokenizeGo fuel (cs.dropWhile wordRunP)
      pure (classifyWord ⟨c :: cs.takeWhile wordRunP⟩ :: rest)
    else do
      let t ← puncToken c
      let rest ← tokenizeGo fuel cs
      pure (t :: rest)

/-- `tokenize(const string&)`. -/
def tokenize (input : String) : Except CalcError (List Token) :=
  tokenizeGo (input.length + 1) input.toList

/-! ## Numeric-literal parsing (`stod` as called by `parsePrimary`)

`stod` converts the longest valid numeric prefix and throws
`std::invalid_argument` only when no conversion can be performed.
`NUMBER` lexemes consist solely of digits and dots (tokenizer invariant),
so the relevant grammar is `digits [ '.' digits ]` with at least one
digit; trailing junk (for example the second dot of `"1.2.3"`) is
ignored. -/

/-- Value of a digit string. -/
def digitsVal (l : List Char) : Nat :=
  l.foldl (fun a c => a * 10 + (c.toNat - '0'.toNat)) 0

/-- `stod` on the digit/dot lexemes produced by the tokenizer. -/
def stodQ (s : String) : Except CalcError ℚ :=
  let cs := s.toList
  let ip := cs.takeWhile Char.isDigit
  match cs.dropWhile Char.isDigit with
  | '.' :: r2 =>
    let fp := r2.takeWhile Char.isDigit
    if ip.isEmpty && fp.isEmpty then .error .stodError
    else .ok ((digitsVal ip : ℚ) + (digitsVal fp : ℚ) / (10 : ℚ) ^ fp.length)
  | _ =>
    if ip.isEmpty then .error .stodError else .ok (digitsVal ip : ℚ)

/-! ## Expression-tree nodes

One constructor per node class of the repository. -/

inductive Node where
  /-- `NumberNode` -/
  | numberNode (value : ℚ)
  /-- `VariableNode` -/
  | variableNode (name : String)
  /-- `NegateNode` -/
  | negateNode (child : Node)
  /-- `PlusNode` (identity) -/
  | plusNode (child : Node)
  /-- `AbsNode` -/
  | absNode (child : Node)
  /-- `FactorialNode` -/
  | factorialNode (child : Node)
  /-- `AddNode` -/
  | addNode (child1 child2 : Node)
  /-- `SubtractNode` -/
  | subtractNode (child1 child2 : Node)
  /-- `MultiplyNode` -/
  | multiplyNode (child1 child2 : Node)
  /-- `DivideNode` -/
  | divideNode (numerator denominator : Node)
  /-- `PowerNode` -/
  | powerNode (base exponent : Node)
  /-- `SinNode` -/
  | sinNode (child : Node)
  /-- `CosNode` -/
  | cosNode (child : Node)
  /-- `TanNode` -/
  | tanNode (child : Node)
  /-- `ArcSinNode` -/
  | arcSinNode (child : Node)
  /-- `ArcCosNode` -/
  | arcCosNode (child : Node)
  /-- `ArcTanNode` -/
  | arcTanNode (child : Node)
  /-- `ExpNode` -/
  | expNode (child : Node)
  /-- `LnNode` -/
  | lnNode (child : Node)
  /-- `LogTenNode` -/
  | logTenNode (child : Node)
  /-- `LogNode` (value, base) -/
  | logNode (val base : Node)
  /-- `SqrtNode` -/
  | sqrtNode (child : Node)
deriving DecidableEq, Repr

/-- `Node::clone`: every class builds a fresh isomorphic copy of its
subtree (`new XNode(child->clone(), ...)`). -/
def Node.clone : Node → Node
  | .numberNode v => .numberNode v
  | .variableNode n => .variableNode n
  | .negateNode c => .negateNode c.clone
  | .plusNode c => .plusNode c.clone
  | .absNode c => .absNode c.clone
  | .factorialNode c => .factorialNode c.clone
  | .addNode a b => .addNode a.clone b.clone
  | .subtractNode a b => .subtractNode a.clone b.clone
  | .multiplyNode a b => .multiplyNode a.clone b.clone
  | .divideNode a b => .divideNode a.clone b.clone
  | .powerNode a b => .powerNode a.clone b.clone
  | .sinNode c => .sinNode c.clone
  | .cosNode c => .cosNode c.clone
  | .tanNode c => .tanNode c.clone
  | .arcSinNode c => .arcSinNode c.clone
  | .arcCosNode c => .arcCosNode c.clone
  | .arcTanNode c => .arcTanNode c.clone
  | .expNode c => .expNode c.clone
  | .lnNode c => .lnNode c.clone
  | .logTenNode c => .logTenNode c.clone
  | .logNode v b => .logNode v.clone b.clone
  | .sqrtNode c => .sqrtNode c.clone

/-! ## Node evaluation -/

/-- The transcendental functions used by node evaluation, abstracted:
the C++ code calls the C library (`sin`, `log`, `pow`, ...), whose exact
values are irrational; theorems below hold for every choice. -/
structure RealOps where
  sinR : ℚ → ℚ
  cosR : ℚ → ℚ
  tanR : ℚ → ℚ
  asinR : ℚ → ℚ
  acosR : ℚ → ℚ
  atanR : ℚ → ℚ
  expR : ℚ → ℚ
  logR : ℚ → ℚ
  log10R : ℚ → ℚ
  sqrtR : ℚ → ℚ
  /-- `pow` at a non-integer exponent -/
  powR : ℚ → ℚ → ℚ

/-- A throwaway instantiation (everything zero) used to evaluate
concrete inputs that never reach a transcendental call. -/
def trivOps : RealOps :=
  ⟨fun _ => 0, fun _ => 0, fun _ => 0, fun _ => 0, fun _ => 0, fun _ => 0,
   fun _ => 0, fun _ => 0, fun _ => 0, fun _ => 0, fun _ _ => 0⟩

/-- First-match lookup in an association list (`std::map::find`). -/
def findVal {α : Type} : List (String × α) → String → Option α
  | [], _ => none
  | (k, v) :: rest, name => if k = name then some v else findVal rest name

/-- Key update (`std::map::operator[] =`): replace the binding if
present, else append. -/
def setKey {α : Type} : List (String × α) → String → α → List (String × α)
  | [], name, v => [(name, v)]
  | (k, w) :: rest, name, v =>
    if k = name then (name, v) :: rest else (k, w) :: setKey rest name v

/-- `a ^ n` for natural `n`, multiplying upward like repeated `*=`. -/
def npowQ (a : ℚ) : Nat → ℚ
  | 0 => 1
  | n + 1 => npowQ a n * a

/-- `powl` restricted to integer exponents (where it is exact). -/
def zpowQ (a : ℚ) : Int → ℚ
  | .ofNat n => npowQ a n
  | .negSucc n => 1 / npowQ a (n + 1)

/-- `floorl` on an exactly-represented value. -/
def ratFloor (q : ℚ) : ℤ := Int.fdiv q.num q.den

/-- `pow(a, b)`: exact integer power when the exponent is integral,
otherwise the abstract real `pow`. -/
def powQ (ops : RealOps) (a b : ℚ) : ℚ :=
  if b = (ratFloor b : ℚ) then zpowQ a (ratFloor b) else ops.powR a b

/-- `result = 1; for (i = 1; i <= n; ++i) result *= i;` -/
def factProd : Nat → ℚ
  | 0 => 1
  | n + 1 => factProd n * (n + 1 : Nat)

/-- `Node::evaluate(variables)`: each case transcribes the corresponding
`evaluate` override, including the order in which children are evaluated
and the exact guard of each `throw`. -/
def evalNode (ops : RealOps) (vars : List (String × ℚ)) : Node → Except CalcError ℚ
  | .numberNode v => .ok v
  | .variableNode name =>
    match findVal vars name with
    | some v => .ok v
    | none => .error (.nameError name)
  | .negateNode c => do
    let v ← evalNode ops vars c
    pure (-v)
  | .plusNode c => evalNode ops vars c
  | .absNode c => do
    let v ← evalNode ops vars c
    pure (if v < 0 then -v else v)
  | .factorialNode c => do
    let v ← evalNode ops vars c
    if v < 0 then .error (.evalError "cannot take factorial of negative number")
    else pure (factProd (ratFloor v).toNat)
  | .addNode a b => do
    let va ← evalNode ops vars a
    let vb ← evalNode ops vars b
    pure (va + vb)
  | .subtractNode a b => do
    let va ← evalNode ops vars a
    let vb ← evalNode ops vars b
    pure (va - vb)
  | .multiplyNode a b => do
    let va ← evalNode ops vars a
    let vb ← evalNode ops vars b
    pure (va * vb)
  | .divideNode numerator denominator => do
    let denom ← evalNode ops vars denominator
    if denom = 0 then .error (.evalError "division by zero")
    else do
      let num ← evalNode ops vars numerator
      pure (num / denom)
  | .powerNode base exponent => do
    let vb ← evalNode ops vars base
    let ve ← evalNode ops vars exponent
    if vb < 0 ∧ ve ≠ (ratFloor ve : ℚ) then
      .error (.evalError "negative base with non-integer exponent")
    else pure (powQ ops vb ve)
  | .sinNode c => do
    let v ← evalNode ops vars c
    pure (ops.sinR v)
  | .cosNode c => do
    let v ← evalNode ops vars c
    pure (ops.cosR v)
  | .tanNode c => do
    let v ← evalNode ops vars c
    pure (ops.tanR v)
  | .arcSinNode c => do
    let v ← evalNode ops vars c
    pure (ops.asinR v)
  | .arcCosNode c => do
    let v ← evalNode ops vars c
    pure (ops.acosR v)
  | .arcTanNode c => do
    let v ← evalNode ops vars c
    pure (ops.atanR v)
  | .expNode c => do
    let v ← evalNode ops vars c
    pure (ops.expR v)
  | .lnNode c => do
    let v ← evalNode ops vars c
    if v ≤ 0 then .error (.evalError "logarithm of non-positive value")
    else pure (ops.logR v)
  | .logTenNode c => do
    let v ← evalNode ops vars c
    if v ≤ 0 then .error (.evalError "logarithm of non-positive value")
    else pure (ops.log10R v)
  | .logNode val base => do
    let baseValue ← evalNode ops vars base
    if baseValue = 1 then .error (.evalError "logarithm base of 1")
    else if baseValue ≤ 0 then .error (.evalError "logarithm of non-positive value")
    else do
      let v ← evalNode ops vars val
      if v ≤ 0 then .error (.evalError "logarithm of non-positive value")
      else pure (ops.logR v / ops.logR baseValue)
  | .sqrtNode c => do
    let v ← evalNode ops vars c
    if v < 0 then .error (.evalError "square root of negative value")
    else pure (ops.sqrtR v)

/-- Whether an evaluation outcome is a failure (a thrown exception in
the C++ code). -/
def isErr {α : Type} : Except CalcError α → Bool
  | .error _ => true
  | .ok _ => false

/-! ## Parser (`Parser.cpp`)

The parser keeps a token vector and a monotone cursor (`currIndex`),
plus the captured assignment-target name.  `next()` saturates at the
last index; `curr()` reads the token under the cursor.  The embedding is
state-passing, with a fuel parameter standing in for the C++ call stack
(the chosen fuel is ample for every input considered; running out yields
the distinguished `outOfFuel` error, never reached below). -/

structure PState where
  tokens : Array Token
  currIndex : Nat
  assignmentVar : String
deriving DecidableEq, Repr

/-- `curr()` — the token vector is `END`-terminated for every tokenizer
output, so the default is never exercised there. -/
def currTok (s : PState) : Token := s.tokens.getD s.currIndex ⟨.END, " "⟩

def currType (s : PState) : TokenType := (currTok s).type

def currValue (s : PState) : String := (currTok s).value

/-- `next()`: advance unless already at the last index. -/
def nextS (s : PState) : PState :=
  if s.currIndex + 1 < s.tokens.size then { s with currIndex := s.currIndex + 1 } else s

/-- `Parser::isAssignment()`: scan the whole vector for an `ASSIGN`
token. -/
def isAssignmentT (s : PState) : Bool :=
  s.tokens.any fun t => t.type == TokenType.ASSIGN

/-- Result of one parsing function: the built subtree and the state
after it. -/
abbrev PResult := Except CalcError (Node × PState)

mutual

/-- `parseExpression` -/
def parseExpressionF : Nat → PState → PResult
  | 0, _ => .error .outOfFuel
  | fuel + 1, s => parseAssignmentF fuel s

/-- `parseAssignment` -/
def parseAssignmentF : Nat → PState → PResult
  | 0, _ => .error .outOfFuel
  | fuel + 1, s =>
    if isAssignmentT s then
      if s.currIndex + 1 < s.tokens.size
          ∧ (s.tokens.getD s.currIndex ⟨.END, " "⟩).type = .VARIABLE
          ∧ (s.tokens.getD (s.currIndex + 1) ⟨.END, " "⟩).type = .ASSIGN then
        parseAdditionF fuel
          { s with assignmentVar := currValue s, currIndex := s.currIndex + 2 }
      else .error (.parseError "use [variable] = [expression] for assignment")
    else parseAdditionF fuel s

/-- `parseAddition`, entry: parse the left side first. -/
def parseAdditionF : Nat → PState → PResult
  | 0, _ => .error .outOfFuel
  | fuel + 1, s => do
    let (left, s1) ← parseMultiplicationF fuel s
    parseAdditionLoopF fuel left s1

/-- `parseAddition`, `while (PLUS || MINUS)` loop. -/
def parseAdditionLoopF : Nat → Node → PState → PResult
  | 0, _, _ => .error .outOfFuel
  | fuel + 1, left, s =>
    if currType s = .PLUS ∨ currType s = .MINUS then do
      let op := currType s
      let (right, s1) ← parseMultiplicationF fuel (nextS s)
      if op = .PLUS then parseAdditionLoopF fuel (.addNode left right) s1
      else parseAdditionLoopF fuel (.subtractNode left right) s1
    else .ok (left, s)

/-- `parseMultiplication`, entry. -/
def parseMultiplicationF : Nat → PState → PResult
  | 0, _ => .error .outOfFuel
  | fuel + 1, s => do
    let (left, s1) ← parsePowerF fuel s
    parseMultiplicationLoopF fuel left s1

/-- `parseMultiplication`, `while (MULTIPLY || DIVIDE)` loop. -/
def parseMultiplicationLoopF : Nat → Node → PState → PResult
  | 0, _, _ => .error .outOfFuel
  | fuel + 1, left, s =>
    if currType s = .MULTIPLY ∨ currType s = .DIVIDE then do
      let op := currType s
      let (right, s1) ← parsePowerF fuel (nextS s)
      if op = .MULTIPLY then parseMultiplicationLoopF fuel (.multiplyNode left right) s1
      else parseMultiplicationLoopF fuel (.divideNode left right) s1
    else .ok (left, s)

/-- `parsePower`: parse a Unary-level base; if a `^` follows, the
exponent is parsed by `parseUnary` — not by `parsePower` — exactly as in
the source (`std::unique_ptr<Node> right = parseUnary();`). -/
def parsePowerF : Nat → PState → PResult
  | 0, _ => .error .outOfFuel
  | fuel + 1, s => do
    let (left, s1) ← parseUnaryF fuel s
    if currType s1 = .POWER then do
      let (right, s2) ← parseUnaryF fuel (nextS s1)
      .ok (.powerNode left right, s2)
    else .ok (left, s1)

/-- `parseUnary`: a leading `MINUS` wraps a recursive Unary-level parse
in `NegateNode`; afterwards zero or more `FACTORIAL` tokens each wrap
the accumulated node. -/
def parseUnaryF : Nat → PState → PResult
  | 0, _ => .error .outOfFuel
  | fuel + 1, s => do
    let (node, s1) ←
      if currType s = .MINUS then do
        let (child, s') ← parseUnaryF fuel (nextS s)
        pure (Node.negateNode child, s')
      else parsePrimaryF fuel s
    parseFactLoopF fuel node s1

/-- `parseUnary`, `while (FACTORIAL)` postfix loop. -/
def parseFactLoopF : Nat → Node → PState → PResult
  | 0, _, _ => .error .outOfFuel
  | fuel + 1, node, s =>
    if currType s = .FACTORIAL then parseFactLoopF fuel (.factorialNode node) (nextS s)
    else .ok (node, s)

/-- `parsePrimary`: numbers, variables, `|...|`, function calls with
their dispatch table, parenthesized expressions, otherwise an error. -/
def parsePrimaryF : Nat → PState → PResult
  | 0, _ => .error .outOfFuel
  | fuel + 1, s =>
    if currType s = .NUMBER then do
      let value ← stodQ (currValue s)
      .ok (.numberNode value, nextS s)
    else if currType s = .VARIABLE then
      .ok (.variableNode (currValue s), nextS s)
    else if currType s = .ABS then do
      let (expr, s1) ← parseExpressionF fuel (nextS s)
      if currType s1 = .ABS then .ok (.absNode expr, nextS s1)
      else .error (.parseError "expected closing | for absolute value expression")
    else if currType s = .FUNCTION then
      let funcName := currValue s
      let s1 := nextS s
      if currType s1 = .LEFTPAREN then
        let s2 := nextS s1
        if funcName == "log" || funcName == "pow" then do
          let (arg1, s3) ← parseExpressionF fuel s2
          if currType s3 = .COMMA then do
            let (arg2, s4) ← parseExpressionF fuel (nextS s3)
            if currType s4 = .RIGHTPAREN then
              if funcName == "log" then .ok (.logNode arg1 arg2, nextS s4)
              else .ok (.powerNode arg1 arg2, nextS s4)
            else .error (.parseError "expected closing parenthesis after function arguments")
          else .error (.parseError "expected comma between log arguments")
        else do
          let (argument, s3) ← parseExpressionF fuel s2
          if currType s3 = .RIGHTPAREN then
            let s4 := nextS s3
            if funcName == "sin" then .ok (.sinNode argument, s4)
            else if funcName == "cos" then .ok (.cosNode argument, s4)
            else if funcName == "tan" then .ok (.tanNode argument, s4)
            else if funcName == "asin" then .ok (.arcSinNode argument, s4)
            else if funcName == "acos" then .ok (.arcCosNode argument, s4)
            else if funcName == "atan" then .ok (.arcTanNode argument, s4)
            else if funcName == "exp" then .ok (.expNode argument, s4)
            else if funcName == "ln" then .ok (.lnNode argument, s4)
            else if funcName == "log10" then .ok (.logTenNode argument, s4)
            else if funcName == "sqrt" then .ok (.sqrtNode argument, s4)
            else if funcName == "abs" then .ok (.absNode argument, s4)
            else if funcName == "fact" then .ok (.factorialNode argument, s4)
            else .error (.unknownFunction funcName)
          else .error (.parseError "expected closing parenthesis after function argument")
      else .error (.parseError "expected opening parenthesis after function name")
    else if currType s = .LEFTPAREN then do
      let (expr, s1) ← parseExpressionF fuel (nextS s)
      if currType s1 = .RIGHTPAREN then .ok (expr, nextS s1)
      else .error (.parseError "expected closing parenthesis after expression")
    else .error (.parseError "unexpected element in expression")

end

/-- `Parser::parse()` on a token vector, with ample fuel. -/
def parseTokens (ts : List Token) : Except CalcError (Node × PState) :=
  parseExpressionF (8 * ts.length + 64) ⟨ts.toArray, 0, ""⟩

/-- Just the tree, as handed to `main`. -/
def parseNode (ts : List Token) : Except CalcError Node :=
  (parseTokens ts).map Prod.fst

/-- `parser.parse()` applied to `tokenize(input)`. -/
def pipelineParse (input : String) : Except CalcError Node := do
  let ts ← tokenize input
  parseNode ts

/-! ## Calculator / variable environment (`src/Calculator.cpp`) -/

/-- The `Calculator` state: value map, reference-node map, and the
preserved-name set (member-initialized with the four built-in
constants). -/
structure Calc where
  /-- the `variables` member: name to current value -/
  vars : List (String × ℚ)
  /-- the `varNodes` member: name to owned reference node -/
  varNodes : List (String × Node)
  /-- the `preservedValues` member -/
  preservedValues : List String
deriving DecidableEq, Repr

/-- `Calculator::assign`: unconditional insert/overwrite of both maps;
the reference node is always a fresh `VariableNode(name)`. -/
def Calc.assign (c : Calc) (name : String) (value : ℚ) : Calc :=
  { c with
    vars := setKey c.vars name value
    varNodes := setKey c.varNodes name (.variableNode name) }

/-- `Calculator::evaluate` (const): evaluate the tree against the value
map; the state is not touched. -/
def Calc.evaluate (ops : RealOps) (c : Calc) (tree : Node) : Except CalcError ℚ :=
  evalNode ops c.vars tree

/-- `Calculator::setVariable`: overwrite only the value map. -/
def Calc.setVariable (c : Calc) (name : String) (value : ℚ) : Calc :=
  { c with vars := setKey c.vars name value }

/-- `Calculator::getVariable`: clone of the stored reference node, or
failure. -/
def Calc.getVariable (c : Calc) (name : String) : Except CalcError Node :=
  match findVal c.varNodes name with
  | some n => .ok n.clone
  | none => .error (.evalError "variable not found")

/-- The snapshot loop of `Calculator::clear`: the current value of every
preserved name that is actually assigned. -/
def collectPreserved (c : Calc) : List (String × ℚ) :=
  c.preservedValues.filterMap fun n => (findVal c.vars n).map fun v => (n, v)

/-- `Calculator::clear`: snapshot preserved values, discard both maps,
re-`assign` each snapshotted pair. -/
def Calc.clear (c : Calc) : Calc :=
  (collectPreserved c).foldl (fun acc p => acc.assign p.1 p.2)
    { c with vars := [], varNodes := [] }

/-- `Calculator::addPreservedValue`: error if the name is not assigned,
else insert into the preserved set. -/
def Calc.addPreservedValue (c : Calc) (name : String) : Except CalcError Calc :=
  match findVal c.vars name with
  | none => .error (.evalError (name ++ " does not exist and cannot be preserved"))
  | some _ =>
    .ok { c with
          preservedValues :=
            if name ∈ c.preservedValues then c.preservedValues
            else c.preservedValues ++ [name] }

/-- `Calculator::removePreservedValue`: `std::set::erase`. -/
def Calc.removePreservedValue (c : Calc) (name : String) : Calc :=
  { c with preservedValues := c.preservedValues.filter fun m => decide (m ≠ name) }

/-- The decimal literals of the built-in constants, read exactly. -/
def piQ : ℚ := 3141592653589793 / 1000000000000000

def eQ : ℚ := 2718281828459045 / 1000000000000000

/-- The `Calculator` constructor: both maps start empty, the preserved
set starts at the four constants (member initializer), then the four
constants are `assign`ed and re-marked preserved (the re-marking leaves
the already-seeded set unchanged, and each `addPreservedValue` succeeds
because the constant was just assigned). -/
def initCalc : Calc :=
  ((((Calc.mk [] [] ["pi", "e", "deg2rad", "rad2deg"]).assign "pi" piQ).assign
      "e" eQ).assign "deg2rad" (piQ / 180)).assign "rad2deg" (180 / piQ)

/-- One iteration of the REPL `try` block (`src/main.cpp`):
tokenize, parse, then — only if the token sequence contains an `ASSIGN`
token — evaluate and `assign`, else just evaluate.  Any failure is
caught and leaves the calculator untouched. -/
def processLine (ops : RealOps) (st : Calc) (input : String) :
    Calc × Except CalcError ℚ :=
  match (do
      let ts ← tokenize input
      parseTokens ts : Except CalcError (Node × PState)) with
  | .error e => (st, .error e)
  | .ok (tree, ps) =>
    if isAssignmentT ps then
      match Calc.evaluate ops st tree with
      | .error e => (st, .error e)
      | .ok result => (st.assign ps.assignmentVar result, .ok result)
    else
      match Calc.evaluate ops st tree with
      | .error e => (st, .error e)
      | .ok result => (st, .ok result)

/-- `evaluate(parse(tokenize(input)))` against the freshly-constructed
environment of the freshly-constructed calculator — the expression
pipeline of the non-assignment path in `main`. -/
def pipelineEval (ops : RealOps) (input : String) : Except CalcError ℚ := do
  let tree ← pipelineParse input
  evalNode ops initCalc.vars tree

/-! ## Generic lemmas -/

@[simp] lemma except_bind_ok {α β : Type} (x : α) (f : α → Except CalcError β) :
    (Except.ok x >>= f) = f x := rfl

@[simp] lemma except_bind_err {α β : Type} (e : CalcError) (f : α → Except CalcError β) :
    ((Except.error e : Except CalcError α) >>= f) = .error e := rfl

@[simp] lemma except_pure {α : Type} (x : α) : (pure x : Except CalcError α) = .ok x := rfl

@[simp] lemma isErr_ok {α : Type} (x : α) : isErr (.ok x) = false := rfl

@[simp] lemma isErr_err {α : Type} (e : CalcError) :
    isErr (.error e : Except CalcError α) = true := rfl

lemma findVal_setKey {α : Type} (m : List (String × α)) (name q : String) (v : α) :
    findVal (setKey m name v) q = if name = q then some v else findVal m q := by
  induction m with
  | nil => simp [setKey, findVal]
  | cons p rest ih =>
    obtain ⟨k, w⟩ := p
    by_cases hk : k = name
    · subst hk
      by_cases hq : k = q <;> simp [setKey, findVal, hq]
    · by_cases hq : k = q
      · subst hq
        have : ¬ name = k := fun h => hk h.symm
        simp [setKey, findVal, hk, this]
      · simp [setKey, findVal, hk, hq, ih]

/-! ## Claim C1 -/

/-- **C1.**  The claim states that exponentiation is right-associative and
`evaluate(parse(tokenize("2^3^2")))` = 512.  On the code this fails:
`parsePower` parses the exponent with `parseUnary`, so `"2^3^2"` parses
as `Power(2,3)` — the second `^` and the final `2` are left unconsumed —
and evaluates to 8, not 512.  This theorem evaluates the code at the
failing input. -/
theorem C1_power_chain_parses_flat_and_evaluates_to_eight (ops : RealOps) :
    pipelineParse "2^3^2" = .ok (.powerNode (.numberNode 2) (.numberNode 3))
    ∧ pipelineEval ops "2^3^2" = .ok 8
    ∧ pipelineEval ops "2^3^2" ≠ .ok 512 := by
  have hp : pipelineParse "2^3^2" = .ok (.powerNode (.numberNode 2) (.numberNode 3)) := rfl
  have he : pipelineEval ops "2^3^2" = .ok 8 := by
    simp [pipelineEval, hp]
    norm_num [evalNode, powQ, zpowQ, npowQ, ratFloor]
  refine ⟨hp, he, ?_⟩
  rw [he]
  intro h
  have : (8 : ℚ) = 512 := by injection h
  norm_num at this

/-! ## Claim C2 -/

/-- **C2, counterexample.**  The claim asserts
`evaluate(parse(tokenize("5!"))) = 120`; in fact the tokenizer has no
`'!'` case, so `tokenize("5!")` already fails with a LexError and the
pipeline never reaches the parser. -/
theorem C2_counterexample_bang_is_a_lex_error :
    pipelineEval trivOps "5!" = .error (.lexError '!') := rfl

/-- **C2, amended.**  The tokenizer in scope rejects `'!'` with a
LexError, so the end-to-end claim fails at `tokenize`; at the parser
level the claimed structure does hold: on a token sequence carrying
`FACTORIAL` tokens, `5!` parses to `Factorial(5)` (value 120) and
`-5!` parses to `Negate(Factorial(5))` (value −120), because the minus
wraps the unary-level parse while each trailing factorial token wraps
the accumulated expression. -/
theorem C2_factorial_at_parser_level (ops : RealOps) (env : List (String × ℚ)) :
    tokenize "5!" = .error (.lexError '!')
    ∧ parseNode [⟨.NUMBER, "5"⟩, ⟨.FACTORIAL, "!"⟩, ⟨.END, " "⟩] =
        .ok (.factorialNode (.numberNode 5))
    ∧ parseNode [⟨.MINUS, "-"⟩, ⟨.NUMBER, "5"⟩, ⟨.FACTORIAL, "!"⟩, ⟨.END, " "⟩] =
        .ok (.negateNode (.factorialNode (.numberNode 5)))
    ∧ evalNode ops env (.factorialNode (.numberNode 5)) = .ok 120
    ∧ evalNode ops env (.negateNode (.factorialNode (.numberNode 5))) = .ok (-120) := by
  refine ⟨rfl, rfl, rfl, ?_, ?_⟩
  · norm_num [evalNode, ratFloor, factProd]
  · norm_num [evalNode, ratFloor, factProd]

/-! ## Claim C3 -/

/-- **C3.**  The claim states that the tokenizer function-name set and
the parser dispatch set are identical, making the unknown-function error
unreachable on tokenizer output.  They are not identical: the tokenizer
classifies `"logten"` as a Function token, but the parser dispatches on
`"log10"`, so the line `"logten(5)"` tokenizes successfully and then
hits the unknown-function failure. -/
theorem C3_unknown_function_reachable_via_logten :
    tokenize "logten(5)" =
      .ok [⟨.FUNCTION, "logten"⟩, ⟨.LEFTPAREN, "("⟩, ⟨.NUMBER, "5"⟩,
           ⟨.RIGHTPAREN, ")"⟩, ⟨.END, " "⟩]
    ∧ "logten" ∈ functionNames
    ∧ pipelineParse "logten(5)" = .error (.unknownFunction "logten") := by
  refine ⟨rfl, ?_, rfl⟩
  simp [functionNames]

/-! ## Claim C4 -/

/-- **C4, counterexample.**  The claim asserts that every Number token
whose text is not a valid number (for example `"1.2.3"`) makes the
primary parse fail with a ParseError.  In fact `stod` converts the
longest valid prefix, so `"1.2.3"` is silently read as 1.2 and the
whole pipeline succeeds. -/
theorem C4_counterexample_malformed_literal_accepted :
    pipelineEval trivOps "1.2.3" = .ok (6 / 5) := by
  have hp : pipelineParse "1.2.3" = .ok (.numberNode ((1 : ℚ) + 2 / 10 ^ 1)) := rfl
  simp [pipelineEval, hp, evalNode]
  norm_num

/-- **C4, amended.**  The tokenizer greedily accepts any maximal run of
digits and dots as one Number token without validation; at
tree-construction time the numeric-literal conversion fails only when
the text has no valid numeric prefix (for example `"."`), while a text
such as `"1.2.3"` is silently truncated to its longest valid prefix
(1.2) and parsing succeeds. -/
theorem C4_literal_truncation_behaviour (ops : RealOps) :
    tokenize "1.2.3" = .ok [⟨.NUMBER, "1.2.3"⟩, ⟨.END, " "⟩]
    ∧ pipelineEval ops "1.2.3" = .ok (6 / 5)
    ∧ tokenize "." = .ok [⟨.NUMBER, "."⟩, ⟨.END, " "⟩]
    ∧ pipelineEval ops "." = .error .stodError := by
  have hp : pipelineParse "1.2.3" = .ok (.numberNode ((1 : ℚ) + 2 / 10 ^ 1)) := rfl
  have hd : pipelineParse "." = .error .stodError := rfl
  refine ⟨rfl, ?_, rfl, ?_⟩
  · simp [pipelineEval, hp, evalNode]
    norm_num
  · simp [pipelineEval, hd]

/-! ## Claim C8 -/

/-- **C8.**  Addition and multiplication levels are left-associative
with multiplication binding tighter: `"2+3*4"` parses as
`Add(2, Multiply(3,4))` and evaluates to 14, while `"(2+3)*4"` parses as
`Multiply(Add(2,3), 4)` — the parentheses group without contributing a
node — and evaluates to 20. -/
theorem C8_precedence_and_grouping (ops : RealOps) :
    pipelineParse "2+3*4" =
      .ok (.addNode (.numberNode 2) (.multiplyNode (.numberNode 3) (.numberNode 4)))
    ∧ pipelineEval ops "2+3*4" = .ok 14
    ∧ pipelineParse "(2+3)*4" =
      .ok (.multiplyNode (.addNode (.numberNode 2) (.numberNode 3)) (.numberNode 4))
    ∧ pipelineEval ops "(2+3)*4" = .ok 20 := by
  have hp1 : pipelineParse "2+3*4" =
      .ok (.addNode (.numberNode 2) (.multiplyNode (.numberNode 3) (.numberNode 4))) := rfl
  have hp2 : pipelineParse "(2+3)*4" =
      .ok (.multiplyNode (.addNode (.numberNode 2) (.numberNode 3)) (.numberNode 4)) := rfl
  refine ⟨hp1, ?_, hp2, ?_⟩
  · simp [pipelineEval, hp1]
    norm_num [evalNode]
  · simp [pipelineEval, hp2]
    norm_num [evalNode]

/-! ## Claim C10 -/

/-- **C10.**  Parsing can succeed without consuming the whole token
sequence: `"1 2"` tokenizes to two consecutive Number tokens, `parse`
returns `Number(1)` with the cursor resting on the second Number token
(before the `END` sentinel) and no error; the trailing token is ignored
and the result is the same as for a lone `"1"`. -/
theorem C10_trailing_tokens_silently_ignored :
    tokenize "1 2" = .ok [⟨.NUMBER, "1"⟩, ⟨.NUMBER, "2"⟩, ⟨.END, " "⟩]
    ∧ parseTokens [⟨.NUMBER, "1"⟩, ⟨.NUMBER, "2"⟩, ⟨.END, " "⟩] =
        .ok (.numberNode 1,
          { tokens := #[⟨.NUMBER, "1"⟩, ⟨.NUMBER, "2"⟩, ⟨.END, " "⟩],
            currIndex := 1, assignmentVar := "" })
    ∧ ([(⟨.NUMBER, "1"⟩ : Token), ⟨.NUMBER, "2"⟩, ⟨.END, " "⟩].get? 1).map Token.type =
        some .NUMBER
    ∧ parseNode [⟨.NUMBER, "1"⟩, ⟨.END, " "⟩] = .ok (.numberNode 1) :=
  ⟨rfl, rfl, rfl, rfl⟩

/-! ## Claim C9 -/

lemma Node.clone_eq (t : Node) : t.clone = t := by
  induction t <;> simp [Node.clone, *]

/-- **C9.**  Cloning commutes with evaluation: for every tree `t` and
environment, evaluating the clone yields exactly the same outcome as
evaluating the original; since the statement quantifies over the
environment, changing the value of a variable between the two evaluations
affects both identically — the clone copies structure, not values. -/
theorem C9_clone_commutes_with_evaluation (ops : RealOps)
    (env : List (String × ℚ)) (t : Node) :
    evalNode ops env t.clone = evalNode ops env t := by
  rw [Node.clone_eq]

/-! ## Claim C7 -/

/-- **C7.**  Node evaluation raises a DomainError exactly under the
conditions of the spec table (stated for operand subtrees that are numeric
literals, i.e. in terms of the evaluated operand values):
`Divide(a,b)` fails iff `b = 0`; `Power(a,b)` fails iff `a < 0` and `b`
is not an integer (`b ≠ floor b`); `Ln(c)`/`Log10(c)` fail iff `c ≤ 0`;
`Sqrt(c)` fails iff `c < 0`; `LogBase(v,b)` fails iff `b ≤ 0`, `b = 1`
or `v ≤ 0`; and Number, an assigned Variable, Negate, Abs, Add,
Subtract and Multiply never fail. -/
theorem C7_domain_error_table (ops : RealOps) (env : List (String × ℚ))
    (a b c v w : ℚ) (name : String) (h : findVal env name = some w) :
    (isErr (evalNode ops env (.divideNode (.numberNode a) (.numberNode b))) ↔ b = 0)
    ∧ (isErr (evalNode ops env (.powerNode (.numberNode a) (.numberNode b))) ↔
        a < 0 ∧ b ≠ (ratFloor b : ℚ))
    ∧ (isErr (evalNode ops env (.lnNode (.numberNode c))) ↔ c ≤ 0)
    ∧ (isErr (evalNode ops env (.logTenNode (.numberNode c))) ↔ c ≤ 0)
    ∧ (isErr (evalNode ops env (.sqrtNode (.numberNode c))) ↔ c < 0)
    ∧ (isErr (evalNode ops env (.logNode (.numberNode v) (.numberNode b))) ↔
        b ≤ 0 ∨ b = 1 ∨ v ≤ 0)
    ∧ evalNode ops env (.numberNode a) = .ok a
    ∧ evalNode ops env (.variableNode name) = .ok w
    ∧ isErr (evalNode ops env (.negateNode (.numberNode a))) = false
    ∧ isErr (evalNode ops env (.absNode (.numberNode a))) = false
    ∧ isErr (evalNode ops env (.addNode (.numberNode a) (.numberNode b))) = false
    ∧ isErr (evalNode ops env (.subtractNode (.numberNode a) (.numberNode b))) = false
    ∧ isErr (evalNode ops env (.multiplyNode (.numberNode a) (.numberNode b))) = false := by
  refine ⟨?_, ?_, ?_, ?_, ?_, ?_, rfl, ?_, rfl, rfl, rfl, rfl, rfl⟩
  · by_cases hb : b = 0 <;> simp [evalNode, hb]
  · by_cases hp : a < 0 ∧ b ≠ ((ratFloor b : ℤ) : ℚ) <;> simp [evalNode, hp]
  · by_cases hc : c ≤ 0 <;> simp [evalNode, hc]
  · by_cases hc : c ≤ 0 <;> simp [evalNode, hc]
  · by_cases hc : c < 0 <;> simp [evalNode, hc]
  · by_cases h1 : b = 1 <;> by_cases h2 : b ≤ 0 <;> by_cases h3 : v ≤ 0 <;>
      simp [evalNode, h1, h2, h3]
  · simp [evalNode, h]

/-- **C7, witness.**  The table instantiated at concrete operands: with
`x = 2` in the environment, `Divide(1,2)` does not fail, and variable
lookup of `x` yields 2. -/
theorem C7_domain_error_table_witness :
    findVal [("x", (2 : ℚ))] "x" = some 2
    ∧ (isErr (evalNode trivOps [("x", (2 : ℚ))]
        (.divideNode (.numberNode 1) (.numberNode 2))) ↔ (2 : ℚ) = 0)
    ∧ evalNode trivOps [("x", (2 : ℚ))] (.variableNode "x") = .ok 2 := by
  have h : findVal [("x", (2 : ℚ))] "x" = some 2 := by simp [findVal]
  have main := C7_domain_error_table trivOps [("x", (2 : ℚ))] 1 2 1 1 2 "x" h
  exact ⟨h, main.1, main.2.2.2.2.2.2.2.1⟩

/-! ## Claim C6 -/

/-- **C6.**  Evaluation failures never mutate the variable environment:
whenever processing a line fails, the calculator state is exactly what
it was before — `main` evaluates first and assigns only on success, and
tree evaluation itself never writes to the environment (it is a `const`
read in the embedding as in the code).  In particular `"1/0"`,
`"sqrt(-1)"` and `"ln(0)"` each fail with their domain error and leave
the freshly-constructed calculator untouched. -/
theorem C6_failures_leave_environment_unchanged (ops : RealOps) (st : Calc)
    (input : String) (e : CalcError)
    (h : (processLine ops st input).2 = .error e) :
    (processLine ops st input).1 = st
    ∧ processLine ops initCalc "1/0" =
        (initCalc, .error (.evalError "division by zero"))
    ∧ processLine ops initCalc "sqrt(-1)" =
        (initCalc, .error (.evalError "square root of negative value"))
    ∧ processLine ops initCalc "ln(0)" =
        (initCalc, .error (.evalError "logarithm of non-positive value")) := by
  refine ⟨?_, ?_, ?_, ?_⟩
  · cases hps : (do
        let ts ← tokenize input
        parseTokens ts : Except CalcError (Node × PState)) with
    | error e' => simp [processLine, hps]
    | ok p =>
      obtain ⟨tree, ps⟩ := p
      by_cases ha : isAssignmentT ps
      · cases hev : Calc.evaluate ops st tree with
        | error e2 => simp [processLine, hps, ha, hev]
        | ok r => simp [processLine, hps, ha, hev] at h
      · cases hev : Calc.evaluate ops st tree with
        | error e2 => simp [processLine, hps, ha, hev]
        | ok r => simp [processLine, hps, ha, hev] at h
  · have hps : (do
        let ts ← tokenize "1/0"
        parseTokens ts : Except CalcError (Node × PState)) =
        .ok (.divideNode (.numberNode 1) (.numberNode 0),
          { tokens := #[⟨.NUMBER, "1"⟩, ⟨.DIVIDE, "/"⟩, ⟨.NUMBER, "0"⟩, ⟨.END, " "⟩],
            currIndex := 3, assignmentVar := "" }) := rfl
    have hev : Calc.evaluate ops initCalc (.divideNode (.numberNode 1) (.numberNode 0)) =
        .error (.evalError "division by zero") := by
      norm_num [Calc.evaluate, evalNode]
    simp [processLine, hps, hev, isAssignmentT]
  · have hps : (do
        let ts ← tokenize "sqrt(-1)"
        parseTokens ts : Except CalcError (Node × PState)) =
        .ok (.sqrtNode (.negateNode (.numberNode 1)),
          { tokens := #[⟨.FUNCTION, "sqrt"⟩, ⟨.LEFTPAREN, "("⟩, ⟨.MINUS, "-"⟩,
              ⟨.NUMBER, "1"⟩, ⟨.RIGHTPAREN, ")"⟩, ⟨.END, " "⟩],
            currIndex := 5, assignmentVar := "" }) := rfl
    have hev : Calc.evaluate ops initCalc (.sqrtNode (.negateNode (.numberNode 1))) =
        .error (.evalError "square root of negative value") := by
      norm_num [Calc.evaluate, evalNode]
    simp [processLine, hps, hev, isAssignmentT]
  · have hps : (do
        let ts ← tokenize "ln(0)"
        parseTokens ts : Except CalcError (Node × PState)) =
        .ok (.lnNode (.numberNode 0),
          { tokens := #[⟨.FUNCTION, "ln"⟩, ⟨.LEFTPAREN, "("⟩, ⟨.NUMBER, "0"⟩,
              ⟨.RIGHTPAREN, ")"⟩, ⟨.END, " "⟩],
            currIndex := 4, assignmentVar := "" }) := rfl
    have hev : Calc.evaluate ops initCalc (.lnNode (.numberNode 0)) =
        .error (.evalError "logarithm of non-positive value") := by
      norm_num [Calc.evaluate, evalNode]
    simp [processLine, hps, hev, isAssignmentT]

/-- **C6, witness.**  `"1/0"` concretely fails with the
division-by-zero domain error, and applying the theorem at that input
shows the environment is unchanged. -/
theorem C6_failures_leave_environment_unchanged_witness :
    (processLine trivOps initCalc "1/0").2 = .error (.evalError "division by zero")
    ∧ (processLine trivOps initCalc "1/0").1 = initCalc := by
  have hps : (do
      let ts ← tokenize "1/0"
      parseTokens ts : Except CalcError (Node × PState)) =
      .ok (.divideNode (.numberNode 1) (.numberNode 0),
        { tokens := #[⟨.NUMBER, "1"⟩, ⟨.DIVIDE, "/"⟩, ⟨.NUMBER, "0"⟩, ⟨.END, " "⟩],
          currIndex := 3, assignmentVar := "" }) := rfl
  have hev : Calc.evaluate trivOps initCalc (.divideNode (.numberNode 1) (.numberNode 0)) =
      .error (.evalError "division by zero") := by
    norm_num [Calc.evaluate, evalNode]
  have h2 : (processLine trivOps initCalc "1/0").2 =
      .error (.evalError "division by zero") := by
    simp [processLine, hps, hev, isAssignmentT]
  exact ⟨h2, (C6_failures_leave_environment_unchanged trivOps initCalc "1/0"
    (.evalError "division by zero") h2).1⟩

/-! ## Claim C5 -/

lemma foldl_assign_not_mem (ps : List (String × ℚ)) (c : Calc) (q : String)
    (h : ∀ p ∈ ps, p.1 ≠ q) :
    findVal (ps.foldl (fun acc p => acc.assign p.1 p.2) c).vars q = findVal c.vars q
    ∧ findVal (ps.foldl (fun acc p => acc.assign p.1 p.2) c).varNodes q =
        findVal c.varNodes q := by
  induction ps generalizing c with
  | nil => simp
  | cons p rest ih =>
    obtain ⟨k, w⟩ := p
    have hk : k ≠ q := h (k, w) (List.mem_cons_self _ _)
    have hrest : ∀ p ∈ rest, p.1 ≠ q := fun p hp => h p (List.mem_cons_of_mem _ hp)
    have hstep := ih (c.assign k w) hrest
    simp only [List.foldl_cons]
    rw [hstep.1, hstep.2]
    constructor <;> simp [Calc.assign, findVal_setKey, hk]

lemma foldl_assign_mem (ps : List (String × ℚ)) (c : Calc) (q : String) (v : ℚ)
    (hfun : ∀ p ∈ ps, p.1 = q → p.2 = v) (hmem : (q, v) ∈ ps) :
    findVal (ps.foldl (fun acc p => acc.assign p.1 p.2) c).vars q = some v
    ∧ findVal (ps.foldl (fun acc p => acc.assign p.1 p.2) c).varNodes q =
        some (.variableNode q) := by
  induction ps generalizing c with
  | nil => cases hmem
  | cons p rest ih =>
    obtain ⟨k, w⟩ := p
    simp only [List.foldl_cons]
    by_cases hq : ∃ p ∈ rest, p.1 = q
    · obtain ⟨p', hp', hpq⟩ := hq
      have hv' : p'.2 = v := hfun p' (List.mem_cons_of_mem _ hp') hpq
      have hpeq : p' = (q, v) := by
        obtain ⟨pk, pv⟩ := p'
        simp only at hpq hv'
        simp [hpq, hv']
      exact ih (c.assign k w) (fun p hp hq1 => hfun p (List.mem_cons_of_mem _ hp) hq1)
        (by rwa [hpeq] at hp')
    · push_neg at hq
      have hstep := foldl_assign_not_mem rest (c.assign k w) q hq
      have hkw : k = q ∧ w = v := by
        rcases List.mem_cons.mp hmem with h1 | h2
        · have h1' := h1.symm
          exact ⟨congrArg Prod.fst h1', congrArg Prod.snd h1'⟩
        · exact absurd rfl (hq (q, v) h2)
      obtain ⟨hkq, hwv⟩ := hkw
      subst hkq hwv
      rw [hstep.1, hstep.2]
      constructor <;> simp [Calc.assign, findVal_setKey]

lemma collect_mem (c : Calc) (q : String) (v : ℚ)
    (h : (q, v) ∈ collectPreserved c) :
    findVal c.vars q = some v ∧ q ∈ c.preservedValues := by
  simp only [collectPreserved, List.mem_filterMap, Option.map_eq_some'] at h
  obtain ⟨n, hn, w, hw, heq⟩ := h
  have hnq : n = q := congrArg Prod.fst heq
  have hwv : w = v := congrArg Prod.snd heq
  subst hnq hwv
  exact ⟨hw, hn⟩

lemma collect_complete (c : Calc) (q : String) (v : ℚ)
    (hq : q ∈ c.preservedValues) (hv : findVal c.vars q = some v) :
    (q, v) ∈ collectPreserved c := by
  simp only [collectPreserved, List.mem_filterMap, Option.map_eq_some']
  exact ⟨q, hq, v, hv, rfl⟩

lemma clear_keeps (c : Calc) (q : String) (v : ℚ)
    (h1 : q ∈ c.preservedValues) (h2 : findVal c.vars q = some v) :
    findVal c.clear.vars q = some v
    ∧ findVal c.clear.varNodes q = some (.variableNode q) := by
  apply foldl_assign_mem
  · intro p hp hpq
    have hm := (collect_mem c p.1 p.2 (by simpa using hp)).1
    rw [hpq, h2] at hm
    exact (Option.some.inj hm).symm
  · exact collect_complete c q v h1 h2

lemma clear_drops (c : Calc) (q : String) (h : q ∉ c.preservedValues) :
    findVal c.clear.vars q = none ∧ findVal c.clear.varNodes q = none := by
  have hno : ∀ p ∈ collectPreserved c, p.1 ≠ q := by
    intro p hp hpq
    exact h (hpq ▸ (collect_mem c p.1 p.2 (by simpa using hp)).2)
  have hstep := foldl_assign_not_mem (collectPreserved c)
    { c with vars := [], varNodes := [] } q hno
  exact ⟨by simpa [findVal] using hstep.1, by simpa [findVal] using hstep.2⟩

/-- **C5.**  `clear()` keeps exactly the preserved variables with their
prior values: a name that is preserved and assigned still evaluates to
the same value after `clear` (and its reference node is rebuilt by
`assign`); a name outside the preserved set is removed, so lookup
fails.  Consequently `addPreservedValue` followed by `clear` retains
the value, while `removePreservedValue` followed by `clear` removes
the name. -/
theorem C5_clear_keeps_exactly_preserved (c c' : Calc) (q : String) (v : ℚ) :
    (q ∈ c.preservedValues → findVal c.vars q = some v →
      findVal c.clear.vars q = some v
      ∧ findVal c.clear.varNodes q = some (.variableNode q))
    ∧ (q ∉ c.preservedValues → findVal c.clear.vars q = none)
    ∧ (c.addPreservedValue q = .ok c' → findVal c.vars q = some v →
      findVal c'.clear.vars q = some v)
    ∧ findVal ((c.removePreservedValue q).clear).vars q = none := by
  refine ⟨fun h1 h2 => clear_keeps c q v h1 h2,
    fun h => (clear_drops c q h).1, ?_, ?_⟩
  · intro hadd h2
    unfold Calc.addPreservedValue at hadd
    rw [h2] at hadd
    simp only [Except.ok.injEq] at hadd
    subst hadd
    refine (clear_keeps _ q v ?_ ?_).1
    · by_cases hmem : q ∈ c.preservedValues <;> simp [hmem]
    · exact h2
  · refine (clear_drops _ q ?_).1
    intro hmem
    rcases List.mem_filter.mp hmem with ⟨_, habs⟩
    simp at habs

/-- **C5, witness.**  Concretely: assign `x = 5` on the fresh
calculator; with `x` added to the preserved set, `clear` keeps `x = 5`;
after `removePreservedValue "x"`, `clear` removes `x`. -/
theorem C5_clear_keeps_exactly_preserved_witness :
    findVal (Calc.clear { initCalc.assign "x" 5 with
      preservedValues := ["pi", "e", "deg2rad", "rad2deg", "x"] }).vars "x" = some 5
    ∧ findVal (Calc.clear (Calc.removePreservedValue
        { initCalc.assign "x" 5 with
          preservedValues := ["pi", "e", "deg2rad", "rad2deg", "x"] } "x")).vars "x" =
        none := by
  have hv : findVal ({ initCalc.assign "x" 5 with
      preservedValues := ["pi", "e", "deg2rad", "rad2deg", "x"] } : Calc).vars "x" =
      some 5 := rfl
  have hm : "x" ∈ ({ initCalc.assign "x" 5 with
      preservedValues := ["pi", "e", "deg2rad", "rad2deg", "x"] } : Calc).preservedValues := by
    simp
  exact ⟨((C5_clear_keeps_exactly_preserved _ initCalc "x" 5).1 hm hv).1,
    (C5_clear_keeps_exactly_preserved
      { initCalc.assign "x" 5 with
        preservedValues := ["pi", "e", "deg2rad", "rad2deg", "x"] } initCalc "x" 5).2.2.2⟩
